import Mathlib

/-!
Verification development for the Backstage `EntityOwnerPicker` data-fetching
hooks: `useFacetsEntities` (facet-based owner enumeration with client-side
pagination over a base64-JSON cursor) and `useQueryEntities` (cursor-paginated
full-text query).  The TypeScript sources are embedded shallowly: JavaScript
strings are modelled as Lean `String` compared by code points, fallible
platform calls (network, `atob`, `JSON.parse`, entity-reference parsing)
return `Except`, and the surrounding React state wiring is dropped — each hook
is embedded as the pure request-to-response function it computes.
-/

/-- Decidable equality for `Except`, so that concrete runs of the fallible
models can be checked by `decide`. -/
instance {ε α : Type} [DecidableEq ε] [DecidableEq α] : DecidableEq (Except ε α) :=
  fun x y =>
    match x, y with
    | .ok a, .ok b =>
      if h : a = b then .isTrue (by rw [h])
      else .isFalse (by intro hc; cases hc; exact h rfl)
    | .error e, .error f =>
      if h : e = f then .isTrue (by rw [h])
      else .isFalse (by intro hc; cases hc; exact h rfl)
    | .ok _, .error _ => .isFalse (by intro hc; cases hc)
    | .error _, .ok _ => .isFalse (by intro hc; cases hc)

/-- Errors a fetch step can throw.  In the source these are JavaScript
exceptions; the embedding distinguishes their origin. -/
inductive FetchError where
  | apiError
  | parseError
  | decodeError
  | encodeError
  deriving DecidableEq, Repr

/-- A catalog entity as built by `useFacetsEntities` from a facet value:
`kind`, `metadata.name` and the optional `metadata.namespace`, plus the fixed
`apiVersion` literal of the stub.  `ns` embeds `metadata.namespace`
(`namespace` is a Lean keyword). -/
structure Entity where
  apiVersion : String
  kind : String
  name : String
  ns : Option String
  deriving DecidableEq, Repr

/-- Modelled from the spec: the `CombinedRequest` union declared in the
missing `useFetchEntities.ts` — either an initial request carrying free-text
`text`, or a continuation request carrying an opaque `cursor` string plus the
items accumulated so far. -/
inductive CombinedRequest where
  | initial (text : String)
  | continuation (cursor : String) (items : List Entity)
  deriving DecidableEq, Repr

/-- The common response shape: `items` plus an optional next-page `cursor`. -/
structure CombinedResponse where
  items : List Entity
  cursor : Option String
  deriving DecidableEq, Repr

/-- Decoded facet cursor payload `{ text, start }`. -/
structure FacetsCursor where
  text : String
  start : Nat
  deriving DecidableEq, Repr

/-! ### String primitives

JavaScript string operations are embedded as structural functions over
`String.data` so that every definition evaluates inside the kernel. -/

/-- Does `hay` start with `needle`?  (Helper for the substring test.) -/
def startsWithL : List Char → List Char → Bool
  | [], _ => true
  | _ :: _, [] => false
  | p :: ps, c :: cs => p = c && startsWithL ps cs

/-- JavaScript `hay.includes(needle)`: `needle` occurs contiguously in
`hay`. -/
def containsL (needle : List Char) : List Char → Bool
  | [] => startsWithL needle []
  | c :: cs => startsWithL needle (c :: cs) || containsL needle cs

/-- JavaScript `hay.includes(needle)` on strings. -/
def strIncludes (hay needle : String) : Bool :=
  containsL needle.data hay.data

/-- The whitespace class trimmed by JavaScript `String.prototype.trim`
(restricted to its common ASCII members). -/
def isWsCh (c : Char) : Bool :=
  c = ' ' || c = '\t' || c = '\n' || c = '\r' || c = '\x0b' || c = '\x0c'

/-- JavaScript `s.trim()` on the character list. -/
def trimL (cs : List Char) : List Char :=
  ((cs.dropWhile isWsCh).reverse.dropWhile isWsCh).reverse

/-- JavaScript `s.trim()`. -/
def trimStr (s : String) : String :=
  String.mk (trimL s.data)

/-- JavaScript `toLocaleLowerCase('en-US')` on one character (ASCII range,
which is all the code exercises: the kinds compared are `group`/`user`). -/
def lowerCh (c : Char) : Char :=
  if 'A' ≤ c && c ≤ 'Z' then Char.ofNat (c.toNat + 32) else c

/-- JavaScript `s.toLocaleLowerCase('en-US')`. -/
def lowerStr (s : String) : String :=
  String.mk (s.data.map lowerCh)

/-- JavaScript `<` on strings: lexicographic by code point. -/
def ltCharsB : List Char → List Char → Bool
  | [], [] => false
  | [], _ :: _ => true
  | _ :: _, [] => false
  | a :: as, b :: bs =>
    if a.toNat < b.toNat then true
    else if b.toNat < a.toNat then false
    else ltCharsB as bs

/-- JavaScript `a < b` on strings. -/
def ltStr (a b : String) : Bool :=
  ltCharsB a.data b.data

/-! ### The local text filter (`filterEntity`) -/

/-- `filterEntity` from `useFacetsEntities.ts`: keeps an entity when the
trimmed search text occurs in its `kind`, in its `metadata.namespace` (the
optional-chained call is `undefined`, hence falsy, when the namespace is
absent), or in its `metadata.name`. -/
def filterEntity (text : String) (entity : Entity) : Bool :=
  let normalizedText := trimStr text
  strIncludes entity.kind normalizedText ||
    (match entity.ns with
      | some s => strIncludes s normalizedText
      | none => false) ||
    strIncludes entity.name normalizedText

/-- Spec-side notion of substring: `needle` occurs contiguously in `hay`.
Stated from the spec's words, to be compared with the source-derived
`strIncludes`. -/
def substrOf (needle hay : String) : Prop :=
  ∃ pre post, hay.data = pre ++ needle.data ++ post

/-- Spec-side reading of the local text filter: keeps an entity iff the
trimmed text is a substring of its kind, of its namespace (when present), or
of its name, with OR semantics.  Stated from the spec's words, to be compared
with the source-derived `filterEntity`. -/
def filterEntitySpec (text : String) (e : Entity) : Prop :=
  substrOf (trimStr text) e.kind ∨
    (∃ s, e.ns = some s ∧ substrOf (trimStr text) s) ∨
    substrOf (trimStr text) e.name

/-! ### The facet sort comparator -/

/-- JavaScript truthiness of the optional `metadata.namespace`: present and
non-empty. -/
def nsTruthy : Option String → Bool
  | some s => s ≠ ""
  | none => false

/-- The comparator passed to `sort` in `useFacetsEntities.ts`: ascending by
`kind`; when both namespaces are truthy, tie-broken by namespace; then by
`name`. -/
def entityCmp (a b : Entity) : Int :=
  if ltStr a.kind b.kind then -1
  else if ltStr b.kind a.kind then 1
  else if nsTruthy a.ns && nsTruthy b.ns && ltStr (a.ns.getD "") (b.ns.getD "") then -1
  else if nsTruthy a.ns && nsTruthy b.ns && ltStr (b.ns.getD "") (a.ns.getD "") then 1
  else if ltStr a.name b.name then -1
  else if ltStr b.name a.name then 1
  else 0

/-- `a` sorts no later than `b` under the facet comparator. -/
def entityLe (a b : Entity) : Bool :=
  entityCmp a b ≤ 0

/-- Stable insertion into a sorted list (helper for the sort model). -/
def insertLe (x : Entity) : List Entity → List Entity
  | [] => [x]
  | y :: ys => if entityLe x y then x :: y :: ys else y :: insertLe x ys

/-- The in-place `Array.prototype.sort` call, embedded as a stable sort with
the facet comparator. -/
def sortEntities : List Entity → List Entity
  | [] => []
  | x :: xs => insertLe x (sortEntities xs)

/-- The filtered and sorted facet list built by `useFacetsEntities` for a
given search text. -/
def facetsList (facets : List Entity) (text : String) : List Entity :=
  sortEntities (facets.filter (filterEntity text))

/-! ### Decimal digits (for `JSON.stringify` of the numeric `start` field) -/

/-- The character of a decimal digit. -/
def digitCh (n : Nat) : Char :=
  Char.ofNat (48 + n)

/-- The value of a decimal digit character. -/
def digitVal (c : Char) : Nat :=
  c.toNat - 48

/-- Is `c` a decimal digit? -/
def isDigitCh (c : Char) : Bool :=
  48 ≤ c.toNat && c.toNat ≤ 57

/-- Decimal rendering of `n`, fuelled so that it evaluates in the kernel;
`fuel > n` suffices. -/
def natToStrAux : Nat → Nat → List Char
  | 0, _ => []
  | fuel + 1, n =>
    if n < 10 then [digitCh n]
    else natToStrAux fuel (n / 10) ++ [digitCh (n % 10)]

/-- Decimal rendering of `n`, as `JSON.stringify` renders the `start`
field. -/
def natToStr (n : Nat) : List Char :=
  natToStrAux (n + 1) n

/-- Consume a run of decimal digits, accumulating their value. -/
def readDigitsAcc (a : Nat) : List Char → Nat × List Char
  | [] => (a, [])
  | c :: rest =>
    if isDigitCh c then readDigitsAcc (a * 10 + digitVal c) rest else (a, c :: rest)

/-- Read a non-empty run of decimal digits; `none` when the input does not
start with a digit. -/
def readNat : List Char → Option (Nat × List Char)
  | [] => none
  | c :: rest => if isDigitCh c then some (readDigitsAcc (digitVal c) rest) else none

/-- Does the list not start with a decimal digit?  (Boundary condition for
the digit reader.) -/
def noDigitHead : List Char → Bool
  | [] => true
  | c :: _ => !isDigitCh c

/-! ### JSON string escaping (the `JSON.stringify` / `JSON.parse` pair,
restricted to the cursor payload shape) -/

/-- Lower-case hexadecimal digit character. -/
def hexCh (n : Nat) : Char :=
  if n < 10 then Char.ofNat (48 + n) else Char.ofNat (87 + n)

/-- Value of a hexadecimal digit character, `none` for non-hex input. -/
def hexVal (c : Char) : Option Nat :=
  if 48 ≤ c.toNat && c.toNat ≤ 57 then some (c.toNat - 48)
  else if 97 ≤ c.toNat && c.toNat ≤ 102 then some (c.toNat - 87)
  else if 65 ≤ c.toNat && c.toNat ≤ 70 then some (c.toNat - 55)
  else none

/-- Modelled from the spec: `JSON.stringify`'s escaping of one character in a
string literal (the platform serializer is not repository code).  Quote and
backslash get two-character escapes, the named control characters get their
short forms, other control characters get `\u00XX`, everything else is
verbatim. -/
def escChar (c : Char) : List Char :=
  if c = '"' then ['\\', '"']
  else if c = '\\' then ['\\', '\\']
  else if c = '\x08' then ['\\', 'b']
  else if c = '\t' then ['\\', 't']
  else if c = '\n' then ['\\', 'n']
  else if c = '\x0c' then ['\\', 'f']
  else if c = '\r' then ['\\', 'r']
  else if c.toNat < 32 then
    ['\\', 'u', '0', '0', hexCh (c.toNat / 16), hexCh (c.toNat % 16)]
  else [c]

/-- Escape a whole string body. -/
def escStr : List Char → List Char
  | [] => []
  | c :: cs => escChar c ++ escStr cs

/-- Un-escape one simple (single-letter) JSON escape. -/
def unescSimple (e : Char) : Option Char :=
  if e = '"' then some '"'
  else if e = '\\' then some '\\'
  else if e = '/' then some '/'
  else if e = 'b' then some '\x08'
  else if e = 't' then some '\t'
  else if e = 'n' then some '\n'
  else if e = 'f' then some '\x0c'
  else if e = 'r' then some '\r'
  else none

/-- Modelled from the spec: `JSON.parse`'s scanning of a string literal body
(the platform parser is not repository code).  Consumes characters up to and
including the closing quote, resolving escapes, and returns the decoded body
together with the unconsumed remainder; `none` on malformed input.  Fuelled
(one unit per decoded character) so that it evaluates in the kernel. -/
def parseJsonStringBodyAux : Nat → List Char → Option (List Char × List Char)
  | 0, _ => none
  | fuel + 1, cs =>
    match cs with
    | [] => none
    | c :: rest =>
      if c = '"' then some ([], rest)
      else if c = '\\' then
        match rest with
        | [] => none
        | e :: r =>
          if e = 'u' then
            match r with
            | h1 :: h2 :: h3 :: h4 :: r2 => do
              let n1 ← hexVal h1
              let n2 ← hexVal h2
              let n3 ← hexVal h3
              let n4 ← hexVal h4
              let (cs2, t) ← parseJsonStringBodyAux fuel r2
              some (Char.ofNat (((n1 * 16 + n2) * 16 + n3) * 16 + n4) :: cs2, t)
            | _ => none
          else do
            let c2 ← unescSimple e
            let (cs2, t) ← parseJsonStringBodyAux fuel r
            some (c2 :: cs2, t)
      else if c.toNat < 32 then none
      else do
        let (cs2, t) ← parseJsonStringBodyAux fuel rest
        some (c :: cs2, t)

/-- Scan a JSON string literal body; the fuel `|input| + 1` is enough, since
every decoded character consumes at least one input character. -/
def parseJsonStringBody (cs : List Char) : Option (List Char × List Char) :=
  parseJsonStringBodyAux (cs.length + 1) cs

/-- Consume an exact expected character sequence. -/
def dropExact : List Char → List Char → Option (List Char)
  | [], cs => some cs
  | _ :: _, [] => none
  | p :: ps, c :: cs => if c = p then dropExact ps cs else none

/-- The fixed opening of the serialized payload: `{"text":"`. -/
def jsonOpen : List Char :=
  "\x7b\"text\":\"".data

/-- The fixed middle of the serialized payload: `","start":` (the closing
quote of the text field is consumed by the string-body scanner). -/
def jsonMid : List Char :=
  ",\"start\":".data

/-- The fixed closing of the serialized payload: `}`. -/
def jsonClose : List Char :=
  "\x7d".data

/-- `JSON.stringify({ text, start })` as a character list: field order follows
the object literal in `encodeCursor`. -/
def stringifyChars (p : FacetsCursor) : List Char :=
  jsonOpen ++ escStr p.text.data ++ '"' :: jsonMid ++ natToStr p.start ++ jsonClose

/-- `JSON.stringify({ text, start })`. -/
def stringifyPayload (p : FacetsCursor) : String :=
  String.mk (stringifyChars p)

/-- Modelled from the spec: `JSON.parse` applied to a facet cursor payload
(the platform parser is not repository code; the spec fixes the wire format
to a JSON object `{text, start}`, and this parser accepts exactly that
shape). -/
def parsePayloadChars (cs : List Char) : Option FacetsCursor := do
  let cs1 ← dropExact jsonOpen cs
  let (textChars, cs2) ← parseJsonStringBody cs1
  let cs3 ← dropExact jsonMid cs2
  let (n, cs4) ← readNat cs3
  let cs5 ← dropExact jsonClose cs4
  if cs5 = [] then some { text := String.mk textChars, start := n } else none

/-- `JSON.parse` of a decoded cursor string, as used by `decodeCursor`. -/
def parsePayload (s : String) : Except FetchError FacetsCursor :=
  match parsePayloadChars s.data with
  | some p => .ok p
  | none => .error .decodeError

/-! ### Base64 (`btoa` / `atob`) -/

/-- The base64 alphabet. -/
def b64Alphabet : List Char :=
  "ABCDEFGHIJKLMNOPQRSTUVWXYZabcdefghijklmnopqrstuvwxyz0123456789+/".data

/-- The base64 character of a 6-bit value. -/
def b64Char (n : Nat) : Char :=
  b64Alphabet.getD n 'A'

/-- Helper: position of `c` in a list, counting from `i`. -/
def b64IndexAux (c : Char) : List Char → Nat → Option Nat
  | [], _ => none
  | a :: as, i => if a = c then some i else b64IndexAux c as (i + 1)

/-- The 6-bit value of a base64 character, `none` for characters outside the
alphabet. -/
def b64Index (c : Char) : Option Nat :=
  b64IndexAux c b64Alphabet 0

/-- Standard base64 encoding of a byte sequence, with `=` padding. -/
def b64encodeBytes : List Nat → List Char
  | [] => []
  | [b0] => [b64Char (b0 / 4), b64Char (b0 % 4 * 16), '=', '=']
  | [b0, b1] => [b64Char (b0 / 4), b64Char (b0 % 4 * 16 + b1 / 16), b64Char (b1 % 16 * 4), '=']
  | b0 :: b1 :: b2 :: rest =>
    b64Char (b0 / 4) :: b64Char (b0 % 4 * 16 + b1 / 16) ::
      b64Char (b1 % 16 * 4 + b2 / 64) :: b64Char (b2 % 64) :: b64encodeBytes rest

/-- Standard base64 decoding back to bytes; `none` on characters outside the
alphabet, misplaced padding, or a length that is not a multiple of four. -/
def b64decodeChars : List Char → Option (List Nat)
  | [] => some []
  | c0 :: c1 :: c2 :: c3 :: rest => do
    let y0 ← b64Index c0
    let y1 ← b64Index c1
    if c2 = '=' then
      if c3 = '=' then
        if rest = [] then some [y0 * 4 + y1 / 16] else none
      else none
    else do
      let y2 ← b64Index c2
      if c3 = '=' then
        if rest = [] then some [y0 * 4 + y1 / 16, y1 % 16 * 16 + y2 / 4] else none
      else do
        let y3 ← b64Index c3
        let tail ← b64decodeChars rest
        some ((y0 * 4 + y1 / 16) :: (y1 % 16 * 16 + y2 / 4) :: (y2 % 4 * 64 + y3) :: tail)
  | _ => none

/-- Modelled from the spec: the platform `btoa` (not repository code; the
spec fixes the cursor wire format to "base64 encoding of a JSON object").
Throws — here, returns an error — when the input has a code point above
255. -/
def btoaF (s : String) : Except FetchError String :=
  if s.data.all (fun c => c.toNat < 256) then
    .ok (String.mk (b64encodeBytes (s.data.map Char.toNat)))
  else .error .encodeError

/-- Modelled from the spec: the platform `atob` (not repository code).
Throws — here, returns an error — on input that is not valid base64. -/
def atobF (s : String) : Except FetchError String :=
  match b64decodeChars s.data with
  | some bs => .ok (String.mk (bs.map Char.ofNat))
  | none => .error .decodeError

/-! ### External catalog API shapes -/

/-- One `{ key, values }` filter entry. -/
structure KVFilter where
  key : String
  values : List String
  deriving DecidableEq, Repr

/-- Request shape of `catalogApi.getEntityFacets`. -/
structure FacetQuery where
  facets : List String
  filter : Option (List KVFilter)
  deriving DecidableEq, Repr

/-- One facet count entry `{ value }` (the count itself is unused by the
hook). -/
structure FacetValue where
  value : String
  deriving DecidableEq, Repr

/-- Response shape of `catalogApi.getEntityFacets`: a map from facet name to
its value entries, embedded as an association list. -/
structure FacetsApiResponse where
  facets : List (String × List FacetValue)
  deriving DecidableEq, Repr

/-- Split a character list on a separator character (helper for the entity
reference parser). -/
def splitOnCh (sep : Char) : List Char → List (List Char)
  | [] => [[]]
  | c :: cs =>
    if c = sep then [] :: splitOnCh sep cs
    else
      match splitOnCh sep cs with
      | [] => [[c]]
      | g :: gs => (c :: g) :: gs

/-- Modelled from the spec: `parseEntityRef` from `@backstage/catalog-model`
(not repository code) — decomposes a `kind:namespace/name` entity reference,
throwing on malformed input. -/
def parseEntityRef (ref : String) : Except FetchError Entity :=
  match splitOnCh ':' ref.data with
  | [kindPart, rest] =>
    match splitOnCh '/' rest with
    | [nsPart, namePart] =>
      if kindPart ≠ [] ∧ nsPart ≠ [] ∧ namePart ≠ [] then
        .ok { apiVersion := "backstage.io/v1beta1"
              kind := String.mk kindPart
              name := String.mk namePart
              ns := some (String.mk nsPart) }
      else .error .parseError
    | _ => .error .parseError
  | _ => .error .parseError

/-! ### `useFacetsEntities` -/

/-- The server-side filter built by `useFacetsEntities`: when the
locale-lowercased `selectedKind` is exactly `group` or `user`, a `kind`
filter carrying the original (un-lowercased) `selectedKind`; otherwise no
filter. -/
def mkOwnersFilter (selectedKind : String) : Option (List KVFilter) :=
  let lower := lowerStr selectedKind
  if lower = "group" || lower = "user" then
    some [{ key := "kind", values := [selectedKind] }]
  else none

/-- `decodeCursor` from `useFacetsEntities.ts`: a continuation request's
cursor is `atob`-decoded and `JSON.parse`d (failures propagate out of this
function); an initial request decodes to `{ text: request.text || '',
start: 0 }`. -/
def decodeCursor (request : CombinedRequest) : Except FetchError FacetsCursor :=
  match request with
  | .continuation cursor _ => do
    let s ← atobF cursor
    parsePayload s
  | .initial text => .ok { text := text, start := 0 }

/-- `encodeCursor` from `useFacetsEntities.ts`: emits
`btoa(JSON.stringify(payload))` when the entity list is strictly longer than
the slice limit, and nothing otherwise.  `btoa` can throw (code points above
255), hence the `Except`. -/
def encodeCursor (entities : List Entity) (limit : Nat) (payload : FacetsCursor) :
    Except FetchError (Option String) :=
  if entities.length > limit then do
    let s ← btoaF (stringifyPayload payload)
    pure (some s)
  else pure none

/-- The slice-and-cursor stage of `useFacetsEntities` (lines 96–116 of the
source): filter by text, sort, slice `[0, start + limit)`, and attach the
next cursor with payload `{ text, start: end }`. -/
def facetsCore (facets : List Entity) (text : String) (start limit : Nat) :
    Except FetchError CombinedResponse := do
  let sortedItems := facetsList facets text
  let e := start + limit
  let cur ← encodeCursor sortedItems e { text := text, start := e }
  pure { items := sortedItems.take e, cursor := cur }

/-- The body of the `try` block of `useFacetsEntities`: facet call, entity
stub construction, cursor decode, then the slice-and-cursor stage.  Any
error anywhere makes the whole body fail. -/
def facetsFetchBody (selectedKind : String)
    (getEntityFacets : FacetQuery → Except FetchError FacetsApiResponse)
    (request : CombinedRequest) (limit : Nat) :
    Except FetchError CombinedResponse := do
  let response ← getEntityFacets
    { facets := ["relations.ownedBy"], filter := mkOwnersFilter selectedKind }
  let rawList := ((response.facets.lookup "relations.ownedBy").getD []).map (·.value)
  let facets ← rawList.mapM parseEntityRef
  let c ← decodeCursor request
  facetsCore facets c.text c.start limit

/-- JavaScript truthiness of the optional `selectedKind` prop. -/
def kindTruthy : Option String → Bool
  | some s => s ≠ ""
  | none => false

/-- The fetch function of `useFacetsEntities`: returns `{ items: [] }` when
disabled or no kind is selected, and catches every failure of the body,
degrading to `{ items: [] }`.  `limitOpt` embeds `options?.limit`
(default 20). -/
def useFacetsEntitiesFetch (enabled : Bool) (selectedKind : Option String)
    (getEntityFacets : FacetQuery → Except FetchError FacetsApiResponse)
    (request : CombinedRequest) (limitOpt : Option Nat) : CombinedResponse :=
  if !enabled || !kindTruthy selectedKind then { items := [], cursor := none }
  else
    match facetsFetchBody (selectedKind.getD "") getEntityFacets request
        (limitOpt.getD 20) with
    | .ok r => r
    | .error _ => { items := [], cursor := none }

/-! ### `useQueryEntities` -/

/-- The full-text filter of `catalogApi.queryEntities`. -/
structure FullTextFilter where
  term : String
  fields : List String
  deriving DecidableEq, Repr

/-- One ordering directive of `catalogApi.queryEntities`. -/
structure OrderField where
  field : String
  order : String
  deriving DecidableEq, Repr

/-- Request shape of `catalogApi.queryEntities`, covering both call sites of
`useQueryEntities`. -/
structure QueryRequest where
  cursor : Option String
  fullTextFilter : Option FullTextFilter
  filter : Option (List KVFilter)
  orderFields : List OrderField
  limit : Nat
  deriving DecidableEq, Repr

/-- Page info of a `queryEntities` response. -/
structure QueryPageInfo where
  nextCursor : Option String
  deriving DecidableEq, Repr

/-- Response shape of `catalogApi.queryEntities`. -/
structure QueryResponse where
  items : List Entity
  pageInfo : QueryPageInfo
  deriving DecidableEq, Repr

/-- The fetch function of `useQueryEntities`: a continuation request forwards
the prior cursor, appends the new page to the accumulated items and forwards
the server's next cursor; an initial request issues the full-text query
restricted to kinds `User`/`Group` ordered by name.  Failures propagate
(no catch). -/
def useQueryEntitiesFetch
    (queryEntities : QueryRequest → Except FetchError QueryResponse)
    (request : CombinedRequest) (limitOpt : Option Nat) :
    Except FetchError CombinedResponse := do
  let limit := limitOpt.getD 20
  match request with
  | .continuation cursor items => do
    let response ← queryEntities
      { cursor := some cursor, fullTextFilter := none, filter := none
        orderFields := [], limit := limit }
    pure { items := items ++ response.items, cursor := response.pageInfo.nextCursor }
  | .initial text => do
    let response ← queryEntities
      { cursor := none
        fullTextFilter := some
          { term := text
            fields := ["metadata.name", "kind", "spec.profile.displayname",
              "metadata.title"] }
        filter := some [{ key := "kind", values := ["User", "Group"] }]
        orderFields := [{ field := "metadata.name", order := "asc" }]
        limit := limit }
    pure { items := response.items, cursor := response.pageInfo.nextCursor }

/-- One stub entity for the concrete runs below. -/
def wEnt1 : Entity :=
  { apiVersion := "v", kind := "group", name := "alice", ns := none }

/-- Another stub entity for the concrete runs below. -/
def wEnt2 : Entity :=
  { apiVersion := "v", kind := "user", name := "bob", ns := none }

/-- A one-page server answer for the concrete runs below. -/
def wPage : QueryResponse :=
  { items := [wEnt2], pageInfo := { nextCursor := some "next" } }

/-- The entity stub parsed from the facet value `user:default/alice` in the
concrete runs below. -/
def wAlice : Entity :=
  { apiVersion := "backstage.io/v1beta1", kind := "user", name := "alice",
    ns := some "default" }

theorem length_insertLe (x : Entity) (l : List Entity) :
    (insertLe x l).length = l.length + 1 := by
  induction l with
  | nil => rfl
  | cons y ys ih =>
    simp only [insertLe]
    split
    · simp
    · simp [ih]

theorem length_sortEntities (l : List Entity) :
    (sortEntities l).length = l.length := by
  induction l with
  | nil => rfl
  | cons x xs ih => simp [sortEntities, length_insertLe, ih]

/-! ### Helper lemmas: JSON string escaping round-trip -/

theorem hexVal_hexCh (m : Nat) (h : m < 16) : hexVal (hexCh m) = some m := by
  interval_cases m <;> rfl

theorem parse_u_step (f : Nat) (h1 h2 h3 h4 : Char) (r2 : List Char) :
    parseJsonStringBodyAux (f + 1) ('\\' :: 'u' :: h1 :: h2 :: h3 :: h4 :: r2) =
      (hexVal h1).bind (fun n1 => (hexVal h2).bind (fun n2 => (hexVal h3).bind (fun n3 =>
        (hexVal h4).bind (fun n4 =>
          (parseJsonStringBodyAux f r2).bind (fun p =>
            some (Char.ofNat (((n1 * 16 + n2) * 16 + n3) * 16 + n4) :: p.1, p.2)))))) :=
  rfl

theorem escChar_parse (f : Nat) (c : Char) (tail : List Char) :
    parseJsonStringBodyAux (f + 1) (escChar c ++ tail) =
      (parseJsonStringBodyAux f tail).bind (fun p => some (c :: p.1, p.2)) := by
  by_cases h1 : c = '"'
  · subst h1; rfl
  by_cases h2 : c = '\\'
  · subst h2; rfl
  by_cases h3 : c = '\x08'
  · subst h3; rfl
  by_cases h4 : c = '\t'
  · subst h4; rfl
  by_cases h5 : c = '\n'
  · subst h5; rfl
  by_cases h6 : c = '\x0c'
  · subst h6; rfl
  by_cases h7 : c = '\r'
  · subst h7; rfl
  by_cases h8 : c.toNat < 32
  · rw [escChar, if_neg h1, if_neg h2, if_neg h3, if_neg h4, if_neg h5, if_neg h6,
      if_neg h7, if_pos h8]
    rw [List.cons_append, List.cons_append, List.cons_append, List.cons_append,
      List.cons_append, List.cons_append, List.nil_append]
    rw [parse_u_step]
    rw [show hexVal '0' = some 0 from rfl]
    rw [hexVal_hexCh (c.toNat / 16) (by omega), hexVal_hexCh (c.toNat % 16) (by omega)]
    simp only [Option.some_bind]
    have harith : ((0 * 16 + 0) * 16 + c.toNat / 16) * 16 + c.toNat % 16 = c.toNat := by
      omega
    rw [harith, Char.ofNat_toNat]
  · have e1 : escChar c = [c] := by
      rw [escChar, if_neg h1, if_neg h2, if_neg h3, if_neg h4, if_neg h5, if_neg h6,
        if_neg h7, if_neg h8]
    rw [e1, List.cons_append, List.nil_append]
    simp only [parseJsonStringBodyAux]
    rw [if_neg h1, if_neg h2, if_neg h8]
    rfl

theorem parseJsonStringBodyAux_escStr :
    ∀ (cs : List Char) (fuel : Nat), cs.length < fuel → ∀ rest : List Char,
      parseJsonStringBodyAux fuel (escStr cs ++ '"' :: rest) = some (cs, rest) := by
  intro cs
  induction cs with
  | nil =>
    intro fuel h rest
    obtain ⟨f, rfl⟩ : ∃ f, fuel = f + 1 := ⟨fuel - 1, by omega⟩
    rfl
  | cons c cs ih =>
    intro fuel h rest
    obtain ⟨f, rfl⟩ : ∃ f, fuel = f + 1 := ⟨fuel - 1, by omega⟩
    rw [escStr, List.append_assoc, escChar_parse f c _,
      ih f (by simp at h; omega) rest]
    rfl

theorem one_le_length_escChar (c : Char) : 1 ≤ (escChar c).length := by
  rw [escChar]
  repeat' split
  all_goals simp

theorem length_le_escStr (cs : List Char) : cs.length ≤ (escStr cs).length := by
  induction cs with
  | nil => simp [escStr]
  | cons c cs ih =>
    have h1 := one_le_length_escChar c
    simp only [escStr, List.length_append, List.length_cons]
    omega

theorem parseJsonStringBody_escStr (cs rest : List Char) :
    parseJsonStringBody (escStr cs ++ '"' :: rest) = some (cs, rest) := by
  apply parseJsonStringBodyAux_escStr
  have := length_le_escStr cs
  simp only [List.length_append, List.length_cons]
  omega

theorem strMk_data (s : String) : String.mk s.data = s := rfl

theorem dropExact_append (p rest : List Char) : dropExact p (p ++ rest) = some rest := by
  induction p with
  | nil => rfl
  | cons c cs ih => simpa [dropExact] using ih

theorem readDigitsAcc_noDigit (a : Nat) (t : List Char) (h : noDigitHead t = true) :
    readDigitsAcc a t = (a, t) := by
  cases t with
  | nil => rfl
  | cons c r =>
    simp only [noDigitHead, Bool.not_eq_true'] at h
    simp [readDigitsAcc, h]

theorem digitCh_isDigit (m : Nat) (h : m < 10) :
    isDigitCh (digitCh m) = true ∧ digitVal (digitCh m) = m := by
  interval_cases m <;> exact ⟨rfl, rfl⟩

theorem readDigitsAcc_all (s : List Char) (hs : s.all isDigitCh = true) (a : Nat)
    (r : List Char) :
    readDigitsAcc a (s ++ r) =
      readDigitsAcc (s.foldl (fun x c => x * 10 + digitVal c) a) r := by
  induction s generalizing a with
  | nil => rfl
  | cons c cs ih =>
    simp only [List.all_cons, Bool.and_eq_true] at hs
    simp [readDigitsAcc, hs.1, ih hs.2]

theorem natToStrAux_all_digits :
    ∀ fuel n : Nat, n < fuel → (natToStrAux fuel n).all isDigitCh = true := by
  intro fuel
  induction fuel with
  | zero => intro n h; omega
  | succ f ih =>
    intro n h
    by_cases h10 : n < 10
    · simp [natToStrAux, h10, (digitCh_isDigit n h10).1]
    · have hrec : n / 10 < f := by omega
      simp [natToStrAux, h10, ih _ hrec, (digitCh_isDigit (n % 10) (by omega)).1]

theorem natToStrAux_foldl :
    ∀ fuel n : Nat, n < fuel → ∀ a : Nat,
      (natToStrAux fuel n).foldl (fun x c => x * 10 + digitVal c) a =
        a * 10 ^ (natToStrAux fuel n).length + n := by
  intro fuel
  induction fuel with
  | zero => intro n h; omega
  | succ f ih =>
    intro n h a
    by_cases h10 : n < 10
    · simp [natToStrAux, h10, (digitCh_isDigit n h10).2]
    · have hrec : n / 10 < f := by omega
      have hd := (digitCh_isDigit (n % 10) (by omega)).2
      simp only [natToStrAux, h10, if_false, List.foldl_append, List.length_append,
        List.foldl_cons, List.foldl_nil, List.length_cons, List.length_nil]
      rw [ih _ hrec a, hd]
      rw [Nat.add_mul, pow_succ, ← Nat.mul_assoc]
      omega

theorem natToStrAux_cons :
    ∀ fuel n : Nat, n < fuel →
      ∃ d ds, natToStrAux fuel n = d :: ds ∧ isDigitCh d = true := by
  intro fuel
  induction fuel with
  | zero => intro n h; omega
  | succ f ih =>
    intro n h
    by_cases h10 : n < 10
    · exact ⟨digitCh n, [], by simp [natToStrAux, h10], (digitCh_isDigit n h10).1⟩
    · have hrec : n / 10 < f := by omega
      obtain ⟨d, ds, hds, hd⟩ := ih _ hrec
      exact ⟨d, ds ++ [digitCh (n % 10)], by simp [natToStrAux, h10, hds], hd⟩

theorem readNat_natToStr (n : Nat) (t : List Char) (h : noDigitHead t = true) :
    readNat (natToStr n ++ t) = some (n, t) := by
  have hn : n < n + 1 := Nat.lt_succ_self n
  obtain ⟨d, ds, hds, hd⟩ := natToStrAux_cons (n + 1) n hn
  have hall := natToStrAux_all_digits (n + 1) n hn
  have hfold := natToStrAux_foldl (n + 1) n hn 0
  have hacc := readDigitsAcc_all (natToStrAux (n + 1) n) hall 0 t
  rw [hds] at hall hfold hacc
  have hfold0 : (d :: ds).foldl (fun x c => x * 10 + digitVal c) 0 = n := by
    rw [hfold]; simp
  rw [hfold0] at hacc
  have e1 : natToStr n = d :: ds := hds
  rw [e1, List.cons_append]
  have hstep : readDigitsAcc 0 (d :: (ds ++ t)) = readDigitsAcc (digitVal d) (ds ++ t) := by
    simp [readDigitsAcc, hd]
  rw [List.cons_append] at hacc
  rw [readNat, if_pos hd, ← hstep, hacc, readDigitsAcc_noDigit n t h]

/-! ### Helper lemmas: the payload codec round-trip -/

theorem dropExact_self (p : List Char) : dropExact p p = some [] := by
  simpa using dropExact_append p []

theorem noDigitHead_jsonClose : noDigitHead jsonClose = true := rfl

theorem parsePayloadChars_stringify (p : FacetsCursor) :
    parsePayloadChars (stringifyChars p) = some p := by
  obtain ⟨t, s⟩ := p
  simp only [parsePayloadChars, stringifyChars, List.append_assoc, List.cons_append]
  rw [dropExact_append]
  simp only [Option.bind_eq_bind, Option.some_bind]
  rw [parseJsonStringBody_escStr]
  simp only [Option.some_bind]
  rw [dropExact_append]
  simp only [Option.some_bind]
  rw [readNat_natToStr s jsonClose noDigitHead_jsonClose]
  simp only [Option.some_bind]
  rw [dropExact_self]
  simp [strMk_data]

theorem b64Index_b64Char_mem : ∀ y ∈ List.range 64, b64Index (b64Char y) = some y := by
  decide

theorem b64Index_b64Char (y : Nat) (h : y < 64) : b64Index (b64Char y) = some y :=
  b64Index_b64Char_mem y (List.mem_range.mpr h)

theorem b64Char_ne_pad_mem : ∀ y ∈ List.range 64, b64Char y ≠ '=' := by decide

theorem b64Char_ne_pad (y : Nat) (h : y < 64) : b64Char y ≠ '=' :=
  b64Char_ne_pad_mem y (List.mem_range.mpr h)

theorem b64decode_encode_aux :
    ∀ (k : Nat) (bs : List Nat), bs.length ≤ k → (∀ b ∈ bs, b < 256) →
      b64decodeChars (b64encodeBytes bs) = some bs := by
  intro k
  induction k with
  | zero =>
    intro bs h _
    rcases bs with _ | ⟨b0, bs⟩
    · rfl
    · simp at h
  | succ k ih =>
    intro bs hlen hb
    rcases bs with _ | ⟨b0, _ | ⟨b1, _ | ⟨b2, rest⟩⟩⟩
    · rfl
    · have h0 : b0 < 256 := hb b0 (by simp)
      simp only [b64encodeBytes, b64decodeChars, Option.bind_eq_bind,
        b64Index_b64Char (b0 / 4) (by omega),
        b64Index_b64Char (b0 % 4 * 16) (by omega),
        Option.some_bind, reduceIte]
      rw [show b0 / 4 * 4 + b0 % 4 * 16 / 16 = b0 from by omega]
    · have h0 : b0 < 256 := hb b0 (by simp)
      have h1 : b1 < 256 := hb b1 (by simp)
      simp only [b64encodeBytes, b64decodeChars, Option.bind_eq_bind,
        b64Index_b64Char (b0 / 4) (by omega),
        b64Index_b64Char (b0 % 4 * 16 + b1 / 16) (by omega),
        b64Index_b64Char (b1 % 16 * 4) (by omega),
        if_neg (b64Char_ne_pad (b1 % 16 * 4) (by omega)),
        Option.some_bind, reduceIte]
      rw [show b0 / 4 * 4 + (b0 % 4 * 16 + b1 / 16) / 16 = b0 from by omega,
        show (b0 % 4 * 16 + b1 / 16) % 16 * 16 + b1 % 16 * 4 / 4 = b1 from by omega]
    · have h0 : b0 < 256 := hb b0 (by simp)
      have h1 : b1 < 256 := hb b1 (by simp)
      have h2 : b2 < 256 := hb b2 (by simp)
      have hih := ih rest (by simp at hlen; omega) (fun b hbm => hb b (by simp [hbm]))
      simp only [b64encodeBytes, b64decodeChars, Option.bind_eq_bind,
        b64Index_b64Char (b0 / 4) (by omega),
        b64Index_b64Char (b0 % 4 * 16 + b1 / 16) (by omega),
        b64Index_b64Char (b1 % 16 * 4 + b2 / 64) (by omega),
        b64Index_b64Char (b2 % 64) (by omega),
        if_neg (b64Char_ne_pad (b1 % 16 * 4 + b2 / 64) (by omega)),
        if_neg (b64Char_ne_pad (b2 % 64) (by omega)),
        hih, Option.some_bind]
      rw [show b0 / 4 * 4 + (b0 % 4 * 16 + b1 / 16) / 16 = b0 from by omega,
        show (b0 % 4 * 16 + b1 / 16) % 16 * 16 + (b1 % 16 * 4 + b2 / 64) / 4 = b1 from by omega,
        show (b1 % 16 * 4 + b2 / 64) % 4 * 64 + b2 % 64 = b2 from by omega]

theorem b64decode_encode (bs : List Nat) (hb : ∀ b ∈ bs, b < 256) :
    b64decodeChars (b64encodeBytes bs) = some bs :=
  b64decode_encode_aux bs.length bs le_rfl hb

theorem atobF_btoaF (s t : String) (h : btoaF s = .ok t) : atobF t = .ok s := by
  rw [btoaF] at h
  by_cases hall : s.data.all (fun c => c.toNat < 256)
  · rw [if_pos hall] at h
    simp only [List.all_eq_true, decide_eq_true_eq] at hall
    cases h
    rw [atobF]
    rw [show (String.mk (b64encodeBytes (s.data.map Char.toNat))).data
        = b64encodeBytes (s.data.map Char.toNat) from rfl]
    rw [b64decode_encode _ (by
      intro b hbmem
      simp only [List.mem_map] at hbmem
      obtain ⟨c, hc, rfl⟩ := hbmem
      exact hall c hc)]
    simp only [List.map_map]
    have hmap : List.map (Char.ofNat ∘ Char.toNat) s.data = s.data := by
      simp [Function.comp_def, Char.ofNat_toNat]
    rw [hmap, strMk_data]
  · rw [if_neg hall] at h
    cases h

theorem decodeCursor_encodeCursor (entities : List Entity) (limit : Nat) (p : FacetsCursor)
    (c : String) (items : List Entity)
    (h : encodeCursor entities limit p = .ok (some c)) :
    decodeCursor (.continuation c items) = .ok p := by
  rw [encodeCursor] at h
  by_cases hlen : entities.length > limit
  · rw [if_pos hlen] at h
    cases hb : btoaF (stringifyPayload p) with
    | error e =>
      rw [hb] at h
      exact absurd (show (Except.error e : Except FetchError (Option String)) = .ok (some c) from h)
        (by intro hc; cases hc)
    | ok s =>
      rw [hb] at h
      have h2 : (Except.ok (some s) : Except FetchError (Option String)) = .ok (some c) := h
      have hsc : s = c := by cases h2; rfl
      subst hsc
      rw [decodeCursor]
      rw [atobF_btoaF _ _ hb]
      rw [show (do
          let s2 ← (Except.ok (stringifyPayload p) : Except FetchError String)
          parsePayload s2) = parsePayload (stringifyPayload p) from rfl]
      rw [parsePayload]
      rw [show (stringifyPayload p).data = stringifyChars p from rfl]
      rw [parsePayloadChars_stringify]
  · rw [if_neg hlen] at h
    exact absurd (show (Except.ok none : Except FetchError (Option String)) = .ok (some c) from h)
      (by intro hc; cases hc)

/-! ### Helper lemmas: substring test -/

theorem startsWithL_iff (n : List Char) :
    ∀ h : List Char, startsWithL n h = true ↔ ∃ t, h = n ++ t := by
  induction n with
  | nil => intro h; simp [startsWithL]
  | cons p ps ih =>
    intro h
    cases h with
    | nil => simp [startsWithL]
    | cons c cs =>
      simp only [startsWithL, Bool.and_eq_true, decide_eq_true_eq, ih, List.cons_append,
        List.cons.injEq]
      constructor
      · rintro ⟨rfl, t, rfl⟩
        exact ⟨t, rfl, rfl⟩
      · rintro ⟨t, rfl, rfl⟩
        exact ⟨rfl, t, rfl⟩

theorem containsL_iff (n : List Char) :
    ∀ h : List Char, containsL n h = true ↔ ∃ pre post, h = pre ++ n ++ post := by
  intro h
  induction h with
  | nil =>
    rw [containsL, startsWithL_iff]
    constructor
    · rintro ⟨t, ht⟩
      have hn : n = [] ∧ t = [] := by
        have := ht.symm
        simpa [List.append_eq_nil] using this
      exact ⟨[], [], by simp [hn.1]⟩
    · rintro ⟨pre, post, hp⟩
      have : pre = [] ∧ n = [] ∧ post = [] := by
        have := hp.symm
        simpa [List.append_eq_nil] using this
      exact ⟨[], by simp [this.2.1]⟩
  | cons c cs ih =>
    rw [containsL, Bool.or_eq_true, startsWithL_iff, ih]
    constructor
    · rintro (⟨t, ht⟩ | ⟨pre, post, hpp⟩)
      · exact ⟨[], t, by simpa using ht⟩
      · exact ⟨c :: pre, post, by simp [hpp]⟩
    · rintro ⟨pre, post, he⟩
      cases pre with
      | nil => exact Or.inl ⟨post, by simpa using he⟩
      | cons x xs =>
        rw [List.cons_append, List.cons_append, List.cons.injEq] at he
        exact Or.inr ⟨xs, post, he.2⟩

theorem containsL_nil (h : List Char) : containsL [] h = true := by
  cases h <;> simp [containsL, startsWithL]

theorem strIncludes_iff (hay needle : String) :
    strIncludes hay needle = true ↔ substrOf needle hay :=
  containsL_iff needle.data hay.data

/-- C8: the local text filter keeps an entity iff the trimmed search text is
a case-sensitive substring of its kind, of its namespace (when present), or
of its name, with OR semantics; and empty text keeps every entity. -/
theorem filterEntity_substring_iff (text : String) (e : Entity) :
    (filterEntity text e = true ↔ filterEntitySpec text e) ∧ filterEntity "" e = true := by
  constructor
  · rw [filterEntity, filterEntitySpec]
    simp only [Bool.or_eq_true, strIncludes_iff]
    cases hns : e.ns with
    | none => simp
    | some s =>
      simp [hns, strIncludes_iff]
      tauto
  · rw [filterEntity]
    simp [strIncludes, show trimStr "" = "" from rfl, containsL_nil]

/-! ### Helper lemmas: inversion of `Except` binds -/

theorem exceptBind_ok {ε α β : Type} (x : Except ε α) (f : α → Except ε β) (r : β)
    (h : (x >>= f) = .ok r) : ∃ a, x = .ok a ∧ f a = .ok r := by
  cases x with
  | ok a => exact ⟨a, rfl, h⟩
  | error e => exact Except.noConfusion (show Except.error e = Except.ok r from h)

theorem facetsFetchBody_ok_inv (sk : String)
    (api : FacetQuery → Except FetchError FacetsApiResponse)
    (request : CombinedRequest) (limit : Nat) (r : CombinedResponse)
    (h : facetsFetchBody sk api request limit = .ok r) :
    ∃ resp facets c,
      api { facets := ["relations.ownedBy"], filter := mkOwnersFilter sk } = .ok resp ∧
      (((resp.facets.lookup "relations.ownedBy").getD []).map (·.value)).mapM
        parseEntityRef = .ok facets ∧
      decodeCursor request = .ok c ∧
      facetsCore facets c.text c.start limit = .ok r := by
  rw [facetsFetchBody] at h
  obtain ⟨resp, h1, h⟩ := exceptBind_ok _ _ _ h
  obtain ⟨facets, h2, h⟩ := exceptBind_ok _ _ _ h
  obtain ⟨c, h3, h⟩ := exceptBind_ok _ _ _ h
  exact ⟨resp, facets, c, h1, h2, h3, h⟩

/-- C9: a continuation request to the text/structured query fetch appends the
server's new page to the accumulated items, order preserved, and forwards the
server's next cursor verbatim. -/
theorem useQueryEntities_continuation_appends
    (queryEntities : QueryRequest → Except FetchError QueryResponse)
    (cursor : String) (items : List Entity) (limitOpt : Option Nat)
    (page : QueryResponse)
    (h : queryEntities { cursor := some cursor, fullTextFilter := none, filter := none,
                         orderFields := [], limit := limitOpt.getD 20 } = .ok page) :
    useQueryEntitiesFetch queryEntities (.continuation cursor items) limitOpt =
      .ok { items := items ++ page.items, cursor := page.pageInfo.nextCursor } := by
  simp only [useQueryEntitiesFetch]
  rw [h]
  rfl

/-- C9 witness: a concrete continuation call appending one page. -/
theorem useQueryEntities_continuation_appends_witness :
    ((fun _ => .ok wPage : QueryRequest → Except FetchError QueryResponse)
        { cursor := some "cur", fullTextFilter := none, filter := none,
          orderFields := [], limit := (none : Option Nat).getD 20 } = .ok wPage) ∧
      useQueryEntitiesFetch (fun _ => .ok wPage) (.continuation "cur" [wEnt1]) none =
        .ok { items := [wEnt1] ++ wPage.items, cursor := wPage.pageInfo.nextCursor } :=
  ⟨rfl, useQueryEntities_continuation_appends _ "cur" [wEnt1] none wPage rfl⟩

/-- C3 (counterexample): with `selectedKind` = "USER" versus "user" the hook
builds different server-side facet requests — the kind filter carries the
original-cased value, so the two requests are not the same. -/
theorem selectedKind_USER_filter_differs :
    mkOwnersFilter "USER" = some [{ key := "kind", values := ["USER"] }] ∧
    mkOwnersFilter "user" = some [{ key := "kind", values := ["user"] }] ∧
    mkOwnersFilter "USER" ≠ mkOwnersFilter "user" := by
  refine ⟨rfl, rfl, ?_⟩
  decide

/-- C3 (amended): "USER" is normalized like "user" for deciding the
server-side filter (both trigger a kind filter), and, given the same facet
response, the two runs produce the same result; the built requests differ
only in the original-cased filter value. -/
theorem selectedKind_USER_same_result
    (r : Except FetchError FacetsApiResponse) (request : CombinedRequest)
    (limitOpt : Option Nat) :
    useFacetsEntitiesFetch true (some "USER") (fun _ => r) request limitOpt =
      useFacetsEntitiesFetch true (some "user") (fun _ => r) request limitOpt ∧
    (mkOwnersFilter "USER").isSome = true ∧ (mkOwnersFilter "user").isSome = true :=
  ⟨rfl, rfl, rfl⟩

/-- C5: an enabled facet fetch whose body throws — at any step — resolves to
`{items: []}` with no cursor; it never rejects (the model is total). -/
theorem facetsFetch_error_resolves_empty (selectedKind : Option String)
    (api : FacetQuery → Except FetchError FacetsApiResponse)
    (request : CombinedRequest) (limitOpt : Option Nat) (e : FetchError)
    (h : facetsFetchBody (selectedKind.getD "") api request (limitOpt.getD 20) = .error e) :
    useFacetsEntitiesFetch true selectedKind api request limitOpt =
      { items := [], cursor := none } := by
  rw [useFacetsEntitiesFetch]
  by_cases ht : kindTruthy selectedKind
  · rw [ht, h]
    simp
  · rw [Bool.not_eq_true] at ht
    rw [ht]
    simp

/-- C5 witness: a network failure on a concrete enabled call resolves to the
empty response. -/
theorem facetsFetch_error_resolves_empty_witness :
    (facetsFetchBody ((some "user" : Option String).getD "")
        (fun _ => .error .apiError) (.initial "") ((none : Option Nat).getD 20) =
      .error .apiError) ∧
    useFacetsEntitiesFetch true (some "user") (fun _ => .error .apiError)
        (.initial "") none = { items := [], cursor := none } :=
  ⟨rfl, facetsFetch_error_resolves_empty (some "user") _ (.initial "") none .apiError rfl⟩

/-- C2 (counterexample): a continuation cursor that is not valid base64 JSON
makes `decodeCursor` throw, yet the facet fetch call still resolves — to
`{items: []}` — instead of propagating the error to the caller. -/
theorem invalid_cursor_is_caught :
    decodeCursor (.continuation "!!!" []) = .error .decodeError ∧
    useFacetsEntitiesFetch true (some "user")
        (fun _ => .ok { facets := [("relations.ownedBy", [{ value := "user:default/alice" }])] })
        (.continuation "!!!" []) none = { items := [], cursor := none } :=
  ⟨by decide, by decide⟩

/-- C2 (amended): a decode failure propagates out of `decodeCursor` itself,
but the surrounding catch converts it: whenever the request's cursor fails to
decode, the facet fetch resolves to `{items: []}` and no error reaches the
caller. -/
theorem decode_failure_resolves_empty (enabled : Bool) (selectedKind : Option String)
    (api : FacetQuery → Except FetchError FacetsApiResponse)
    (request : CombinedRequest) (limitOpt : Option Nat) (e : FetchError)
    (h : decodeCursor request = .error e) :
    useFacetsEntitiesFetch enabled selectedKind api request limitOpt =
      { items := [], cursor := none } := by
  rw [useFacetsEntitiesFetch]
  by_cases hcond : (!enabled || !kindTruthy selectedKind) = true
  · rw [if_pos hcond]
  · rw [if_neg hcond]
    cases hbody : facetsFetchBody (selectedKind.getD "") api request (limitOpt.getD 20) with
    | error e2 => rfl
    | ok r =>
      obtain ⟨_, _, c, _, _, h3, _⟩ := facetsFetchBody_ok_inv _ _ _ _ _ hbody
      rw [h] at h3
      exact Except.noConfusion h3

/-- C2 amended witness: the concrete invalid cursor resolves to the empty
response. -/
theorem decode_failure_resolves_empty_witness :
    (decodeCursor (.continuation "!!!" []) = .error .decodeError) ∧
    useFacetsEntitiesFetch true (some "user")
        (fun _ => .ok { facets := [("relations.ownedBy", [{ value := "user:default/alice" }])] })
        (.continuation "!!!" []) none = { items := [], cursor := none } :=
  ⟨by decide,
    decode_failure_resolves_empty true (some "user") _ (.continuation "!!!" []) none
      .decodeError (by decide)⟩

/-! ### Helper lemmas: the slice-and-cursor stage -/

theorem facetsCore_ok_inv (facets : List Entity) (text : String) (start limit : Nat)
    (r : CombinedResponse) (h : facetsCore facets text start limit = .ok r) :
    ∃ cur, encodeCursor (facetsList facets text) (start + limit)
        { text := text, start := start + limit } = .ok cur ∧
      r = { items := (facetsList facets text).take (start + limit), cursor := cur } := by
  simp only [facetsCore] at h
  obtain ⟨cur, h1, h2⟩ := exceptBind_ok _ _ _ h
  exact ⟨cur, h1, by cases h2; rfl⟩

theorem encodeCursor_ok_cases (entities : List Entity) (limit : Nat)
    (payload : FacetsCursor) (cur : Option String)
    (h : encodeCursor entities limit payload = .ok cur) :
    (entities.length > limit ∧ ∃ s, cur = some s ∧ btoaF (stringifyPayload payload) = .ok s) ∨
      (¬entities.length > limit ∧ cur = none) := by
  rw [encodeCursor] at h
  by_cases hl : entities.length > limit
  · rw [if_pos hl] at h
    obtain ⟨s, h1, h2⟩ := exceptBind_ok _ _ _ h
    exact Or.inl ⟨hl, s, by cases h2; rfl, h1⟩
  · rw [if_neg hl] at h
    exact Or.inr ⟨hl, by cases h; rfl⟩

/-- C6: for every successful run of the slice-and-cursor stage, the next
cursor is present iff the filtered/sorted facet list is strictly longer than
the end offset `start + limit`; otherwise the cursor is omitted. -/
theorem facets_cursor_iff_more_items (facets : List Entity) (text : String)
    (start limit : Nat) (r : CombinedResponse)
    (h : facetsCore facets text start limit = .ok r) :
    r.cursor.isSome = true ↔ (facetsList facets text).length > start + limit := by
  obtain ⟨cur, h1, rfl⟩ := facetsCore_ok_inv _ _ _ _ _ h
  rcases encodeCursor_ok_cases _ _ _ _ h1 with ⟨hl, s, rfl, _⟩ | ⟨hl, rfl⟩
  · simpa using hl
  · simpa using hl

/-- C6 witness: a concrete two-entity list with limit 1 emits a cursor, and
the iff instantiates. -/
theorem facets_cursor_iff_more_items_witness :
    (facetsCore [wEnt1, wEnt2] "" 0 1 =
      .ok { items := [wEnt1], cursor := some "eyJ0ZXh0IjoiIiwic3RhcnQiOjF9" }) ∧
    (((some "eyJ0ZXh0IjoiIiwic3RhcnQiOjF9" : Option String).isSome = true) ↔
      (facetsList [wEnt1, wEnt2] "").length > 0 + 1) :=
  ⟨by decide, facets_cursor_iff_more_items [wEnt1, wEnt2] "" 0 1
    { items := [wEnt1], cursor := some "eyJ0ZXh0IjoiIiwic3RhcnQiOjF9" } (by decide)⟩

/-- C7: a successful run of the slice-and-cursor stage returns the prefix
`[0, start + limit)` of the filtered/sorted facet list (a cumulative
re-slice, not a disjoint page), and any emitted cursor decodes back to the
same text with `start` advanced to `start + limit` — the cumulative count. -/
theorem facets_items_prefix_and_cursor_start (facets : List Entity) (text : String)
    (start limit : Nat) (r : CombinedResponse)
    (h : facetsCore facets text start limit = .ok r) :
    r.items = (facetsList facets text).take (start + limit) ∧
      ∀ s, r.cursor = some s →
        decodeCursor (.continuation s []) =
          .ok { text := text, start := start + limit } := by
  obtain ⟨cur, h1, rfl⟩ := facetsCore_ok_inv _ _ _ _ _ h
  refine ⟨rfl, ?_⟩
  intro s hs
  have hcur : cur = some s := hs
  rw [hcur] at h1
  exact decodeCursor_encodeCursor _ _ _ s [] h1

/-- C7 witness: the concrete two-entity run returns the one-element prefix
and its cursor decodes to `start = 1`. -/
theorem facets_items_prefix_and_cursor_start_witness :
    (facetsCore [wEnt1, wEnt2] "" 0 1 =
      .ok { items := [wEnt1], cursor := some "eyJ0ZXh0IjoiIiwic3RhcnQiOjF9" }) ∧
    ([wEnt1] = (facetsList [wEnt1, wEnt2] "").take (0 + 1) ∧
      ∀ s, (some "eyJ0ZXh0IjoiIiwic3RhcnQiOjF9" : Option String) = some s →
        decodeCursor (.continuation s []) = .ok { text := "", start := 0 + 1 }) := by
  have h : facetsCore [wEnt1, wEnt2] "" 0 1 =
      .ok { items := [wEnt1], cursor := some "eyJ0ZXh0IjoiIiwic3RhcnQiOjF9" } := by decide
  exact ⟨h, facets_items_prefix_and_cursor_start [wEnt1, wEnt2] "" 0 1 _ h⟩

/-- C4 (counterexample): the very first (initial, hence cursor-reachable)
fetch against a one-owner catalog succeeds with `start = 0` and the default
`limit = 20`, yet the slice end offset `0 + 20` exceeds the filtered/sorted
list length `1`. -/
theorem slice_end_exceeds_length :
    useFacetsEntitiesFetch true (some "user")
        (fun _ => .ok { facets := [("relations.ownedBy", [{ value := "user:default/alice" }])] })
        (.initial "") none = { items := [wAlice], cursor := none } ∧
      decodeCursor (.initial "") = .ok { text := "", start := 0 } ∧
      (facetsList [wAlice] "").length = 1 ∧ ¬(0 + 20 ≤ (facetsList [wAlice] "").length) := by
  refine ⟨by decide, by decide, by decide, by decide⟩

/-- C4 (amended): the end offset itself can exceed the list length, but the
slice clamps: a successful slice-and-cursor run never returns more items than
the filtered/sorted facet list holds. -/
theorem facets_items_le_list_length (facets : List Entity) (text : String)
    (start limit : Nat) (r : CombinedResponse)
    (h : facetsCore facets text start limit = .ok r) :
    r.items.length ≤ (facetsList facets text).length := by
  obtain ⟨cur, h1, rfl⟩ := facetsCore_ok_inv _ _ _ _ _ h
  simp

/-- C4 amended witness: the concrete one-owner run returns one item, no more
than the list length. -/
theorem facets_items_le_list_length_witness :
    (facetsCore [wAlice] "" 0 20 = .ok { items := [wAlice], cursor := none }) ∧
    ({ items := [wAlice], cursor := none } : CombinedResponse).items.length ≤
      (facetsList [wAlice] "").length :=
  ⟨by decide, facets_items_le_list_length [wAlice] "" 0 20
    { items := [wAlice], cursor := none } (by decide)⟩

/-- C10: cursor decode is a left inverse of cursor encode: when `encodeCursor`
emits a cursor for a payload, decoding a continuation request carrying that
cursor yields the same `{text, start}` payload back. -/
theorem decode_left_inverse_encode (entities : List Entity) (limit : Nat)
    (p : FacetsCursor) (c : String) (items : List Entity)
    (h : encodeCursor entities limit p = .ok (some c)) :
    decodeCursor (.continuation c items) = .ok p :=
  decodeCursor_encodeCursor entities limit p c items h

/-- C10 witness: a concrete payload round-trips through the emitted base64
cursor. -/
theorem decode_left_inverse_encode_witness :
    (encodeCursor [wEnt1, wEnt2] 1 { text := "a", start := 3 } =
      .ok (some "eyJ0ZXh0IjoiYSIsInN0YXJ0IjozfQ==")) ∧
    decodeCursor (.continuation "eyJ0ZXh0IjoiYSIsInN0YXJ0IjozfQ==" []) =
      .ok { text := "a", start := 3 } :=
  ⟨by decide, decode_left_inverse_encode [wEnt1, wEnt2] 1 { text := "a", start := 3 }
    "eyJ0ZXh0IjoiYSIsInN0YXJ0IjozfQ==" [] (by decide)⟩

/-! ### Helper lemmas: the comparator as a lexicographic order -/

theorem charToNat_inj (a b : Char) (h : a.toNat = b.toNat) : a = b :=
  Char.ext (UInt32.ext h)

theorem ltCharsB_irrefl : ∀ as : List Char, ltCharsB as as = false := by
  intro as
  induction as with
  | nil => rfl
  | cons a as ih => simp [ltCharsB, ih]

theorem ltCharsB_trans :
    ∀ as bs cs : List Char, ltCharsB as bs = true → ltCharsB bs cs = true →
      ltCharsB as cs = true := by
  intro as
  induction as with
  | nil =>
    intro bs cs h1 h2
    cases bs with
    | nil => simp [ltCharsB] at h1
    | cons b bs' =>
      cases cs with
      | nil => simp [ltCharsB] at h2
      | cons c cs' => simp [ltCharsB]
  | cons a as' ih =>
    intro bs cs h1 h2
    cases bs with
    | nil => simp [ltCharsB] at h1
    | cons b bs' =>
      cases cs with
      | nil => simp [ltCharsB] at h2
      | cons c cs' =>
        rw [ltCharsB] at h1 h2 ⊢
        by_cases hab : a.toNat < b.toNat
        · by_cases hbc : b.toNat < c.toNat
          · rw [if_pos (show a.toNat < c.toNat by omega)]
          · rw [if_neg hbc] at h2
            by_cases hcb : c.toNat < b.toNat
            · rw [if_pos hcb] at h2; cases h2
            · rw [if_neg hcb] at h2
              rw [if_pos (show a.toNat < c.toNat by omega)]
        · rw [if_neg hab] at h1
          by_cases hba : b.toNat < a.toNat
          · rw [if_pos hba] at h1; cases h1
          · rw [if_neg hba] at h1
            by_cases hbc : b.toNat < c.toNat
            · rw [if_pos (show a.toNat < c.toNat by omega)]
            · rw [if_neg hbc] at h2
              by_cases hcb : c.toNat < b.toNat
              · rw [if_pos hcb] at h2; cases h2
              · rw [if_neg hcb] at h2
                rw [if_neg (show ¬a.toNat < c.toNat by omega),
                  if_neg (show ¬c.toNat < a.toNat by omega)]
                exact ih bs' cs' h1 h2

theorem ltCharsB_eq_of_not :
    ∀ as bs : List Char, ltCharsB as bs = false → ltCharsB bs as = false → as = bs := by
  intro as
  induction as with
  | nil =>
    intro bs h1 _
    cases bs with
    | nil => rfl
    | cons b bs' => simp [ltCharsB] at h1
  | cons a as' ih =>
    intro bs h1 h2
    cases bs with
    | nil => simp [ltCharsB] at h2
    | cons b bs' =>
      rw [ltCharsB] at h1 h2
      by_cases hab : a.toNat < b.toNat
      · rw [if_pos hab] at h1; cases h1
      · rw [if_neg hab] at h1
        by_cases hba : b.toNat < a.toNat
        · rw [if_pos hba] at h2; cases h2
        · rw [if_neg hba] at h1
          rw [if_neg hba, if_neg hab] at h2
          have hc : a = b := charToNat_inj a b (by omega)
          rw [hc, ih bs' h1 h2]

theorem strData_inj (a b : String) (h : a.data = b.data) : a = b := by
  cases a
  cases b
  exact congrArg String.mk h

theorem ltStr_trans (a b c : String) (h1 : ltStr a b = true) (h2 : ltStr b c = true) :
    ltStr a c = true :=
  ltCharsB_trans a.data b.data c.data h1 h2

theorem ltStr_eq_of_not (a b : String) (h1 : ltStr a b = false) (h2 : ltStr b a = false) :
    a = b :=
  strData_inj a b (ltCharsB_eq_of_not a.data b.data h1 h2)

theorem ltStr_irrefl (a : String) : ltStr a a = false :=
  ltCharsB_irrefl a.data

theorem entityCmp_cases (a b : Entity) :
    entityCmp a b = -1 ∨ entityCmp a b = 0 ∨ entityCmp a b = 1 := by
  rw [entityCmp]
  repeat' split
  all_goals simp

theorem entityCmp_neg1_iff (a b : Entity) (ha : nsTruthy a.ns = true)
    (hb : nsTruthy b.ns = true) :
    entityCmp a b = -1 ↔
      (ltStr a.kind b.kind = true ∨
        (a.kind = b.kind ∧ (ltStr (a.ns.getD "") (b.ns.getD "") = true ∨
          (a.ns.getD "" = b.ns.getD "" ∧ ltStr a.name b.name = true)))) := by
  rw [entityCmp, ha, hb]
  simp only [Bool.true_and]
  by_cases h1 : ltStr a.kind b.kind = true
  · rw [if_pos h1]
    simp [h1]
  · rw [if_neg h1]
    rw [Bool.not_eq_true] at h1
    by_cases h2 : ltStr b.kind a.kind = true
    · rw [if_pos h2]
      constructor
      · intro hc; cases hc
      · rintro (hlt | ⟨hk, _⟩)
        · rw [h1] at hlt; cases hlt
        · rw [hk, ltStr_irrefl] at h2; cases h2
    · rw [if_neg h2]
      rw [Bool.not_eq_true] at h2
      have hk : a.kind = b.kind := ltStr_eq_of_not _ _ h1 h2
      by_cases h3 : ltStr (a.ns.getD "") (b.ns.getD "") = true
      · rw [if_pos h3]
        simp [hk, h3, h1]
      · rw [if_neg h3]
        rw [Bool.not_eq_true] at h3
        by_cases h4 : ltStr (b.ns.getD "") (a.ns.getD "") = true
        · rw [if_pos h4]
          constructor
          · intro hc; cases hc
          · rintro (hlt | ⟨-, hlt | ⟨hn, -⟩⟩)
            · rw [h1] at hlt; cases hlt
            · rw [h3] at hlt; cases hlt
            · rw [hn, ltStr_irrefl] at h4; cases h4
        · rw [if_neg h4]
          rw [Bool.not_eq_true] at h4
          have hn : a.ns.getD "" = b.ns.getD "" := ltStr_eq_of_not _ _ h3 h4
          by_cases h5 : ltStr a.name b.name = true
          · rw [if_pos h5]
            simp [hk, hn, h5, h1, h3]
          · rw [if_neg h5]
            rw [Bool.not_eq_true] at h5
            by_cases h6 : ltStr b.name a.name = true
            · rw [if_pos h6]
              constructor
              · intro hc; cases hc
              · rintro (hlt | ⟨-, hlt | ⟨-, hlt⟩⟩)
                · rw [h1] at hlt; cases hlt
                · rw [h3] at hlt; cases hlt
                · rw [h5] at hlt; cases hlt
            · rw [if_neg h6]
              constructor
              · intro hc; cases hc
              · rintro (hlt | ⟨-, hlt | ⟨-, hlt⟩⟩)
                · rw [h1] at hlt; cases hlt
                · rw [h3] at hlt; cases hlt
                · rw [h5] at hlt; cases hlt

theorem entityCmp_trans_namespaced (a b c : Entity)
    (ha : nsTruthy a.ns = true) (hb : nsTruthy b.ns = true) (hc : nsTruthy c.ns = true)
    (h1 : entityCmp a b = -1) (h2 : entityCmp b c = -1) : entityCmp a c = -1 := by
  rw [entityCmp_neg1_iff a b ha hb] at h1
  rw [entityCmp_neg1_iff b c hb hc] at h2
  rw [entityCmp_neg1_iff a c ha hc]
  rcases h1 with h1 | ⟨hk1, h1⟩
  · rcases h2 with h2 | ⟨hk2, h2⟩
    · exact Or.inl (ltStr_trans _ _ _ h1 h2)
    · rw [← hk2]
      exact Or.inl h1
  · rcases h2 with h2 | ⟨hk2, h2⟩
    · rw [hk1]
      exact Or.inl h2
    · refine Or.inr ⟨hk1.trans hk2, ?_⟩
      rcases h1 with h1 | ⟨hn1, h1⟩
      · rcases h2 with h2 | ⟨hn2, h2⟩
        · exact Or.inl (ltStr_trans _ _ _ h1 h2)
        · rw [← hn2]
          exact Or.inl h1
      · rcases h2 with h2 | ⟨hn2, h2⟩
        · rw [hn1]
          exact Or.inl h2
        · exact Or.inr ⟨hn1.trans hn2, ltStr_trans _ _ _ h1 h2⟩

/-- C1 (counterexample): the facet comparator is not transitive, hence not a
total order: with a fixed kind, a namespaced entity `a`, an un-namespaced
entity `b` and a namespaced entity `c` give `a < b` and `b < c` (namespace
skipped, names compared) yet `a > c` (namespaces compared). -/
theorem entityCmp_not_transitive :
    entityCmp { apiVersion := "v", kind := "k", name := "x", ns := some "2" }
        { apiVersion := "v", kind := "k", name := "y", ns := none } = -1 ∧
      entityCmp { apiVersion := "v", kind := "k", name := "y", ns := none }
        { apiVersion := "v", kind := "k", name := "z", ns := some "1" } = -1 ∧
      entityCmp { apiVersion := "v", kind := "k", name := "x", ns := some "2" }
        { apiVersion := "v", kind := "k", name := "z", ns := some "1" } = 1 := by
  refine ⟨by decide, by decide, by decide⟩

/-- C1 (amended): the facet comparator satisfies trichotomy — for any two
entities exactly one of less-than, equal, greater-than holds — and it is
transitive on entities whose namespaces are all present and non-empty (as
every facet-built entity's is); it is not transitive in general. -/
theorem entityCmp_trichotomy_and_namespaced_trans :
    (∀ a b : Entity,
      (entityCmp a b = -1 ∧ ¬entityCmp a b = 0 ∧ ¬entityCmp a b = 1) ∨
        (¬entityCmp a b = -1 ∧ entityCmp a b = 0 ∧ ¬entityCmp a b = 1) ∨
        (¬entityCmp a b = -1 ∧ ¬entityCmp a b = 0 ∧ entityCmp a b = 1)) ∧
      (∀ a b c : Entity,
        nsTruthy a.ns = true → nsTruthy b.ns = true → nsTruthy c.ns = true →
          entityCmp a b = -1 → entityCmp b c = -1 → entityCmp a c = -1) := by
  constructor
  · intro a b
    rcases entityCmp_cases a b with h | h | h
    · exact Or.inl ⟨h, by rw [h]; decide, by rw [h]; decide⟩
    · exact Or.inr (Or.inl ⟨by rw [h]; decide, h, by rw [h]; decide⟩)
    · exact Or.inr (Or.inr ⟨by rw [h]; decide, by rw [h]; decide, h⟩)
  · exact entityCmp_trans_namespaced

/-- C1 witness: trichotomy at a concrete pair, and transitivity at a concrete
namespaced triple whose hypotheses all hold. -/
theorem entityCmp_trichotomy_and_namespaced_trans_witness :
    ((entityCmp wEnt1 wEnt2 = -1 ∧ ¬entityCmp wEnt1 wEnt2 = 0 ∧ ¬entityCmp wEnt1 wEnt2 = 1) ∨
      (¬entityCmp wEnt1 wEnt2 = -1 ∧ entityCmp wEnt1 wEnt2 = 0 ∧ ¬entityCmp wEnt1 wEnt2 = 1) ∨
      (¬entityCmp wEnt1 wEnt2 = -1 ∧ ¬entityCmp wEnt1 wEnt2 = 0 ∧ entityCmp wEnt1 wEnt2 = 1)) ∧
    (nsTruthy (some "n") = true ∧
      entityCmp { apiVersion := "v", kind := "k", name := "a", ns := some "n" }
        { apiVersion := "v", kind := "k", name := "b", ns := some "n" } = -1 ∧
      entityCmp { apiVersion := "v", kind := "k", name := "b", ns := some "n" }
        { apiVersion := "v", kind := "k", name := "c", ns := some "n" } = -1) ∧
    entityCmp { apiVersion := "v", kind := "k", name := "a", ns := some "n" }
      { apiVersion := "v", kind := "k", name := "c", ns := some "n" } = -1 :=
  ⟨entityCmp_trichotomy_and_namespaced_trans.1 wEnt1 wEnt2,
    ⟨by decide, by decide, by decide⟩,
    entityCmp_trichotomy_and_namespaced_trans.2
      { apiVersion := "v", kind := "k", name := "a", ns := some "n" }
      { apiVersion := "v", kind := "k", name := "b", ns := some "n" }
      { apiVersion := "v", kind := "k", name := "c", ns := some "n" }
      (by decide) (by decide) (by decide) (by decide) (by decide)⟩
